import Mathlib

/-!
# Verification of the natrium EdDSA signature wrapper (signature.go)

This file gives a shallow embedding of `signature.go`, a thin Go wrapper
around the libsodium `crypto_sign` (Ed25519) primitives, and proves or
refutes the specification's claims about it.

Modelling decisions:
* Bytes are `Nat` values (a well-formed byte is `< 256`); byte slices are
  `List Nat`.
* Go functions that can panic return a `GoOutcome`: either `ok v` (a normal
  return) or `panicked msg` (a runtime panic).  Taking `&s[0]` of an empty
  slice panics with an index-out-of-range runtime error, which the wrapper
  does for each slice it passes to C; the guards below mirror the left-to-
  right evaluation order of the cgo call arguments in the source.
* The libsodium primitives are outside this repository; they are abstracted
  as a structure `SodiumSign` whose laws record the contract the spec
  assumes of the external, audited Ed25519 library (fixed positive length
  constants, fixed-size outputs written into caller buffers, success on
  well-formed inputs, and verification accepting genuine signatures).
  Theorems quantify over every `SodiumSign`, and a concrete instance
  `mockSodium` witnesses satisfiability.
* A C call writes its output into a caller-allocated buffer of fixed
  length; `bufWrite n out` models the buffer of length `n` after the
  callee wrote `out` into it, so the length of a returned slice comes from
  the `make` allocation in Go, exactly as in the source.
-/

/-- Outcome of running a Go function: a normal return or a runtime panic. -/
inductive GoOutcome (α : Type) where
  | ok (val : α)
  | panicked (msg : String)
deriving DecidableEq

/-- True exactly on a normal (non-panicking) return. -/
def GoOutcome.isOk {α : Type} : GoOutcome α → Bool
  | .ok _ => true
  | .panicked _ => false

/-- The Go runtime error raised by `s[0]` on an empty slice. -/
def indexPanic : String := "runtime error: index out of range [0] with length 0"

/-- The message built by `fmt.Sprintf` in `Verify` for a wrong-length signature. -/
def sprintfWrongLen (gotLen wantLen : Nat) : String :=
  "Signature passed has the wrong length (" ++ toString gotLen ++ " != " ++
    toString wantLen ++ ")"

/-- Contents of a caller buffer `make([]byte, n)` after the callee wrote
`out` into it: the C ABI cannot change the Go slice length. -/
def bufWrite (n : Nat) (out : List Nat) : List Nat :=
  List.take n out ++ List.replicate (n - out.length) 0

/-- Modelled from the spec: the libsodium `crypto_sign` primitives
(`crypto_sign_keypair`, `crypto_sign_ed25519_sk_to_pk`,
`crypto_sign_detached`, `crypto_sign_verify_detached`) and the constants
`crypto_sign_SECRETKEYBYTES` / `crypto_sign_PUBLICKEYBYTES` /
`crypto_sign_BYTES` are not part of this repository's sources.  This
structure abstracts that external library: the data fields are the
primitives (split into the bytes written into the caller's buffer and the
returned status), the `Nat → ⬝` fields consume an abstract entropy world,
and the proof fields are the contract the spec attributes to the audited
Ed25519 implementation: positive fixed length constants, fixed-length
outputs, derivation and signing succeeding on well-formed secret keys, and
verification accepting a genuine signature under the derived public key. -/
structure SodiumSign where
  SECRETKEYBYTES : Nat
  PUBLICKEYBYTES : Nat
  SIGNBYTES : Nat
  secret_pos : 0 < SECRETKEYBYTES
  public_pos : 0 < PUBLICKEYBYTES
  sign_pos : 0 < SIGNBYTES
  keypair_out : Nat → List Nat × List Nat
  keypair_rv : Nat → Int
  sk_to_pk : List Nat → List Nat
  sk_to_pk_rv : List Nat → Int
  sk_to_pk_len : ∀ sk, (sk_to_pk sk).length = PUBLICKEYBYTES
  sk_to_pk_ok : ∀ sk, sk.length = SECRETKEYBYTES → sk_to_pk_rv sk = 0
  sign_detached : List Nat → List Nat → List Nat
  sign_rv : List Nat → List Nat → Int
  sign_len : ∀ sk m, (sign_detached sk m).length = SIGNBYTES
  sign_ok : ∀ sk m, sk.length = SECRETKEYBYTES → sign_rv sk m = 0
  verify_rv : List Nat → List Nat → List Nat → Int
  verify_sign : ∀ sk m, sk.length = SECRETKEYBYTES →
    verify_rv (sign_detached sk m) m (sk_to_pk sk) = 0

/-- EdDSA private key type (`type EdDSAPrivate []byte`). -/
abbrev EdDSAPrivate := List Nat

/-- EdDSA public key type (`type EdDSAPublic []byte`). -/
abbrev EdDSAPublic := List Nat

/-- `EdDSAGenerateKey` from the source: allocates the two key buffers, calls
`crypto_sign_keypair(&publ[0], &priv[0])`, panics on a non-zero status, and
returns the private-key buffer.  `world` is the entropy state the keypair
primitive consumes. -/
def EdDSAGenerateKey (S : SodiumSign) (world : Nat) : GoOutcome EdDSAPrivate :=
  if S.PUBLICKEYBYTES = 0 then .panicked indexPanic
  else if S.SECRETKEYBYTES = 0 then .panicked indexPanic
  else if S.keypair_rv world ≠ 0 then .panicked "crypto_sign_keypair returned non-zero"
  else .ok (bufWrite S.SECRETKEYBYTES (S.keypair_out world).2)

/-- `(priv EdDSAPrivate) PublicKey()` from the source: allocates `toret`,
calls `crypto_sign_ed25519_sk_to_pk(&toret[0], &priv[0])`, panics on a
non-zero status, returns `toret`.  `world` threads the ambient process
state; the body never reads it. -/
def EdDSAPrivate.PublicKey (S : SodiumSign) (world : Nat) (priv : EdDSAPrivate) :
    GoOutcome EdDSAPublic :=
  if S.PUBLICKEYBYTES = 0 then .panicked indexPanic
  else if priv.length = 0 then .panicked indexPanic
  else if S.sk_to_pk_rv priv ≠ 0 then
    .panicked "crypto_sign_ed25519_sk_to_pk returned non-zero"
  else .ok (bufWrite S.PUBLICKEYBYTES (S.sk_to_pk priv))

/-- `(priv EdDSAPrivate) Sign(message)` from the source: allocates the
signature buffer, calls `crypto_sign_detached(&signature[0], nil,
&message[0], len(message), &priv[0])`, panics on a non-zero status,
returns the signature buffer.  The guards mirror the order in which the
call's arguments take `&s[0]`. -/
def EdDSAPrivate.Sign (S : SodiumSign) (priv : EdDSAPrivate) (message : List Nat) :
    GoOutcome (List Nat) :=
  if S.SIGNBYTES = 0 then .panicked indexPanic
  else if message.length = 0 then .panicked indexPanic
  else if priv.length = 0 then .panicked indexPanic
  else if S.sign_rv priv message ≠ 0 then .panicked "crypto_sign_detached returned non-zero"
  else .ok (bufWrite S.SIGNBYTES (S.sign_detached priv message))

/-- `(publ EdDSAPublic) Verify(message, signature)` from the source: panics
via `fmt.Sprintf` when the signature length differs from
`EdDSASignatureLength`, then calls `crypto_sign_verify_detached` and maps a
non-zero status to the returned error `"EdDSA signature is forged!"` and a
zero status to `nil` (here `ok none` is `nil`, `ok (some e)` a returned
error `e`). -/
def EdDSAPublic.Verify (S : SodiumSign) (publ : EdDSAPublic)
    (message signature : List Nat) : GoOutcome (Option String) :=
  if signature.length ≠ S.SIGNBYTES then
    .panicked (sprintfWrongLen signature.length S.SIGNBYTES)
  else if signature.length = 0 then .panicked indexPanic
  else if message.length = 0 then .panicked indexPanic
  else if publ.length = 0 then .panicked indexPanic
  else if S.verify_rv signature message publ ≠ 0 then
    .ok (some "EdDSA signature is forged!")
  else .ok none

/-- Composite of the three wrapper calls in the claim
`Verify(DerivePublicKey(k), m, Sign(k, m))`, propagating panics. -/
def signThenVerify (S : SodiumSign) (world : Nat) (k m : List Nat) :
    GoOutcome (Option String) :=
  match EdDSAPrivate.PublicKey S world k with
  | .panicked s => .panicked s
  | .ok pk =>
    match EdDSAPrivate.Sign S k m with
    | .panicked s => .panicked s
    | .ok sig => EdDSAPublic.Verify S pk m sig

/-- The sixteen lowercase hex digit characters used by Go's `%x` verb. -/
def hexTable : List Char := "0123456789abcdef".toList

/-- Go's `%x` rendering of one byte inside a `[]byte`: two lowercase hex
digits (high nibble then low nibble). -/
def byteHex (b : Nat) : List Char := [hexTable.getD (b / 16) '?', hexTable.getD (b % 16) '?']

/-- Go's `fmt.Sprintf("%x", bs)` on a `[]byte`: each byte as two lowercase
hex digits, concatenated. -/
def goHex (bs : List Nat) : String := String.mk ((bs.map byteHex).flatten)

/-- `(k EdDSAPublic) String()` from the source: `fmt.Sprintf("dsapub:%x", k)`. -/
def EdDSAPublic.String (k : EdDSAPublic) : String := "dsapub:" ++ goHex k

/-- `(k EdDSAPrivate) String()` from the source: `fmt.Sprintf("dsaprv:%x", k)`. -/
def EdDSAPrivate.String (k : EdDSAPrivate) : String := "dsaprv:" ++ goHex k

/-- Independent rendering following the spec's words: the lowercase
hexadecimal rendering of a byte sequence, two digits per byte via
`Nat.digitChar`. -/
def lowercaseHexRendering (bs : List Nat) : String :=
  String.mk ((bs.map (fun b => [Nat.digitChar (b / 16), Nat.digitChar (b % 16)])).flatten)

/-- The base64 standard alphabet (Go's `base64.StdEncoding`), used by
`encoding/json` for `[]byte` values. -/
def b64Table : List Char := "ABCDEFGHIJKLMNOPQRSTUVWXYZabcdefghijklmnopqrstuvwxyz0123456789+/".toList

/-- Character for a six-bit group. -/
def b64Chr (s : Nat) : Char := b64Table.getD s 'A'

/-- Index of a character in the base64 alphabet, `none` when absent
(padding `'='` and all other characters are absent). -/
def b64Idx (c : Char) : Option Nat := b64Table.findIdx? (fun x => x = c)

/-- Modelled from the spec: Go's `encoding/json` marshals a `[]byte` as a
base64 (standard alphabet, `'='`-padded) string; `encoding/json` is the Go
standard library, not part of this repository.  Standard base64 encoding of
a byte list, three bytes to four characters. -/
def b64Encode : List Nat → List Char
  | [] => []
  | [b1] => [b64Chr (b1 / 4), b64Chr (b1 % 4 * 16), '=', '=']
  | [b1, b2] => [b64Chr (b1 / 4), b64Chr (b1 % 4 * 16 + b2 / 16), b64Chr (b2 % 16 * 4), '=']
  | b1 :: b2 :: b3 :: rest =>
    b64Chr (b1 / 4) :: b64Chr (b1 % 4 * 16 + b2 / 16) ::
      b64Chr (b2 % 16 * 4 + b3 / 64) :: b64Chr (b3 % 64) :: b64Encode rest

/-- Modelled from the spec: standard base64 decoding, four characters to
three bytes, honouring `'='` padding in the final quantum; `none` on
malformed input.  This is the decoding `encoding/json` applies when
unmarshaling into a `[]byte`. -/
def b64Decode : List Char → Option (List Nat)
  | [] => some []
  | c1 :: c2 :: c3 :: c4 :: rest =>
    if c3 = '=' then
      if c4 = '=' ∧ rest = [] then
        match b64Idx c1, b64Idx c2 with
        | some s1, some s2 => some [s1 * 4 + s2 / 16]
        | _, _ => none
      else none
    else if c4 = '=' then
      if rest = [] then
        match b64Idx c1, b64Idx c2, b64Idx c3 with
        | some s1, some s2, some s3 => some [s1 * 4 + s2 / 16, s2 % 16 * 16 + s3 / 4]
        | _, _, _ => none
      else none
    else
      match b64Idx c1, b64Idx c2, b64Idx c3, b64Idx c4, b64Decode rest with
      | some s1, some s2, some s3, some s4, some tail =>
        some ((s1 * 4 + s2 / 16) :: (s2 % 16 * 16 + s3 / 4) :: (s3 % 4 * 64 + s4) :: tail)
      | _, _, _, _, _ => none
  | _ => none

/-- `(publ EdDSAPublic) MarshalJSON()` from the source:
`json.Marshal([]byte(publ))`, a JSON string holding the base64 encoding of
the bytes. -/
def EdDSAPublic.MarshalJSON (publ : EdDSAPublic) : List Char :=
  '"' :: (b64Encode publ ++ ['"'])

/-- Modelled from the spec: `json.Unmarshal` of a JSON string into a Go
`[]byte` strips the quotes and base64-decodes the contents (`encoding/json`
is the Go standard library, not part of this repository). -/
def jsonUnmarshalBytes : List Char → Option (List Nat)
  | '"' :: rest => if rest.getLast? = some '"' then b64Decode rest.dropLast else none
  | _ => none

/-- A concrete `SodiumSign` instance with the real libsodium Ed25519 length
constants and toy primitives satisfying the contract; it only witnesses
that the abstract interface is inhabited and lets closed theorems
evaluate. -/
def mockSodium : SodiumSign where
  SECRETKEYBYTES := 64
  PUBLICKEYBYTES := 32
  SIGNBYTES := 64
  secret_pos := by decide
  public_pos := by decide
  sign_pos := by decide
  keypair_out := fun e => (List.replicate 32 (e % 256), List.replicate 64 (e % 256))
  keypair_rv := fun _ => 0
  sk_to_pk := fun sk => bufWrite 32 sk
  sk_to_pk_rv := fun _ => 0
  sk_to_pk_len := fun sk => by
    simp [bufWrite, List.length_take, List.length_append]; omega
  sk_to_pk_ok := fun _ _ => rfl
  sign_detached := fun sk m => bufWrite 64 (bufWrite 32 sk ++ m.length % 256 :: m)
  sign_rv := fun _ _ => 0
  sign_len := fun sk m => by
    simp [bufWrite, List.length_take, List.length_append]; omega
  sign_ok := fun _ _ _ => rfl
  verify_rv := fun sig m pub => if sig = bufWrite 64 (pub ++ m.length % 256 :: m) then 0 else 1
  verify_sign := fun sk m _ => by
    simp [bufWrite, List.length_take, List.length_append]

/-- A `SodiumSign` identical to `mockSodium` except that the keypair
primitive reports failure, exercising the failure path of
`EdDSAGenerateKey`. -/
def mockSodiumFail : SodiumSign := { mockSodium with keypair_rv := fun _ => 1 }

theorem bufWrite_length (n : Nat) (out : List Nat) : (bufWrite n out).length = n := by
  simp [bufWrite]
  omega

theorem bufWrite_eq_of_length (out : List Nat) (n : Nat) (h : out.length = n) :
    bufWrite n out = out := by
  subst h
  simp [bufWrite]

theorem b64Idx_b64Chr : ∀ s : Nat, s < 64 → b64Idx (b64Chr s) = some s := by decide

theorem b64Chr_ne_pad (s : Nat) : b64Chr s ≠ '=' := by
  by_cases h : s < 64
  · exact (by decide : ∀ t : Nat, t < 64 → b64Chr t ≠ '=') s h
  · unfold b64Chr
    rw [List.getD_eq_default]
    · decide
    · have hlen : b64Table.length = 64 := by decide
      omega

theorem b64_roundtrip : ∀ bs : List Nat, (∀ b ∈ bs, b < 256) →
    b64Decode (b64Encode bs) = some bs := by
  intro bs
  induction bs using b64Encode.induct with
  | case1 => intro _; rfl
  | case2 b1 =>
    intro h
    have hb1 : b1 < 256 := h b1 (by simp)
    have e1 : b64Idx (b64Chr (b1 / 4)) = some (b1 / 4) := b64Idx_b64Chr _ (by omega)
    have e2 : b64Idx (b64Chr (b1 % 4 * 16)) = some (b1 % 4 * 16) := b64Idx_b64Chr _ (by omega)
    simp [b64Encode, b64Decode, e1, e2]
    omega
  | case3 b1 b2 =>
    intro h
    have hb1 : b1 < 256 := h b1 (by simp)
    have hb2 : b2 < 256 := h b2 (by simp)
    have e1 : b64Idx (b64Chr (b1 / 4)) = some (b1 / 4) := b64Idx_b64Chr _ (by omega)
    have e2 : b64Idx (b64Chr (b1 % 4 * 16 + b2 / 16)) = some (b1 % 4 * 16 + b2 / 16) :=
      b64Idx_b64Chr _ (by omega)
    have e3 : b64Idx (b64Chr (b2 % 16 * 4)) = some (b2 % 16 * 4) := b64Idx_b64Chr _ (by omega)
    simp [b64Encode, b64Decode, e1, e2, e3, b64Chr_ne_pad]
    constructor
    · omega
    · omega
  | case4 b1 b2 b3 rest ih =>
    intro h
    have hb1 : b1 < 256 := h b1 (by simp)
    have hb2 : b2 < 256 := h b2 (by simp)
    have hb3 : b3 < 256 := h b3 (by simp)
    have hrest : ∀ b ∈ rest, b < 256 := fun b hb => h b (by simp [hb])
    have e1 : b64Idx (b64Chr (b1 / 4)) = some (b1 / 4) := b64Idx_b64Chr _ (by omega)
    have e2 : b64Idx (b64Chr (b1 % 4 * 16 + b2 / 16)) = some (b1 % 4 * 16 + b2 / 16) :=
      b64Idx_b64Chr _ (by omega)
    have e3 : b64Idx (b64Chr (b2 % 16 * 4 + b3 / 64)) = some (b2 % 16 * 4 + b3 / 64) :=
      b64Idx_b64Chr _ (by omega)
    have e4 : b64Idx (b64Chr (b3 % 64)) = some (b3 % 64) := b64Idx_b64Chr _ (by omega)
    simp [b64Encode, b64Decode, e1, e2, e3, e4, b64Chr_ne_pad, ih hrest]
    refine ⟨by omega, by omega, by omega⟩

set_option maxRecDepth 4096 in
theorem byteHex_eq_digitChar : ∀ b : Nat, b < 256 →
    byteHex b = [Nat.digitChar (b / 16), Nat.digitChar (b % 16)] := by decide

theorem hexChars_eq : ∀ bs : List Nat, (∀ b ∈ bs, b < 256) →
    (bs.map byteHex).flatten =
      (bs.map (fun b => [Nat.digitChar (b / 16), Nat.digitChar (b % 16)])).flatten := by
  intro bs
  induction bs with
  | nil => intro _; rfl
  | cons b tl ih =>
    intro h
    simp only [List.map_cons, List.flatten_cons]
    rw [byteHex_eq_digitChar b (h b (by simp)), ih (fun x hx => h x (by simp [hx]))]

/-- C9: for every byte sequence `k`, the `String` method of `EdDSAPublic`
returns the fixed tag `"dsapub:"` followed by the lowercase hexadecimal
rendering of the bytes, and the `String` method of `EdDSAPrivate` returns
the distinct fixed tag `"dsaprv:"` followed by the same rendering. -/
theorem string_renders_tagged_hex (k : List Nat) (h : ∀ b ∈ k, b < 256) :
    EdDSAPublic.String k = "dsapub:" ++ lowercaseHexRendering k ∧
    EdDSAPrivate.String k = "dsaprv:" ++ lowercaseHexRendering k ∧
    ("dsapub:" : String) ≠ "dsaprv:" := by
  refine ⟨?_, ?_, by decide⟩
  · unfold EdDSAPublic.String goHex lowercaseHexRendering
    rw [hexChars_eq k h]
  · unfold EdDSAPrivate.String goHex lowercaseHexRendering
    rw [hexChars_eq k h]

theorem string_renders_tagged_hex_witness :
    EdDSAPublic.String [0, 171, 255] = "dsapub:" ++ lowercaseHexRendering [0, 171, 255] ∧
    EdDSAPrivate.String [0, 171, 255] = "dsaprv:" ++ lowercaseHexRendering [0, 171, 255] ∧
    ("dsapub:" : String) ≠ "dsaprv:" :=
  string_renders_tagged_hex [0, 171, 255] (by decide)

/-- C6: public-key derivation is a deterministic pure function of the
private key alone: the ambient world state is never consulted, so any two
calls on the same key bytes produce the same outcome, hence identical
public-key byte sequences. -/
theorem publicKey_deterministic (S : SodiumSign) (w1 w2 : Nat) (k : EdDSAPrivate) :
    EdDSAPrivate.PublicKey S w1 k = EdDSAPrivate.PublicKey S w2 k := rfl

/-- C5: whenever they return normally, `EdDSAGenerateKey` returns exactly
`SECRETKEYBYTES` (= `PRIVATE_KEY_LEN`) bytes, `PublicKey` returns exactly
`PUBLICKEYBYTES` bytes, and `Sign` returns exactly `SIGNBYTES` bytes, for
every key and every message: the lengths come from the `make` allocations
in the source. -/
theorem outputs_have_fixed_lengths (S : SodiumSign) :
    (∀ w k, EdDSAGenerateKey S w = .ok k → k.length = S.SECRETKEYBYTES) ∧
    (∀ w priv p, EdDSAPrivate.PublicKey S w priv = .ok p → p.length = S.PUBLICKEYBYTES) ∧
    (∀ priv m sig, EdDSAPrivate.Sign S priv m = .ok sig → sig.length = S.SIGNBYTES) := by
  refine ⟨fun w k hk => ?_, fun w priv p hp => ?_, fun priv m sig hs => ?_⟩
  · unfold EdDSAGenerateKey at hk
    split_ifs at hk <;> first
      | exact GoOutcome.noConfusion hk
      | (injection hk with hk; rw [← hk]; exact bufWrite_length _ _)
  · unfold EdDSAPrivate.PublicKey at hp
    split_ifs at hp <;> first
      | exact GoOutcome.noConfusion hp
      | (injection hp with hp; rw [← hp]; exact bufWrite_length _ _)
  · unfold EdDSAPrivate.Sign at hs
    split_ifs at hs <;> first
      | exact GoOutcome.noConfusion hs
      | (injection hs with hs; rw [← hs]; exact bufWrite_length _ _)

theorem outputs_have_fixed_lengths_witness :
    (List.replicate 64 (0 : Nat)).length = mockSodium.SECRETKEYBYTES ∧
    (List.replicate 32 (0 : Nat)).length = mockSodium.PUBLICKEYBYTES ∧
    (List.replicate 32 (0 : Nat) ++ 1 :: 1 :: List.replicate 30 0).length = mockSodium.SIGNBYTES :=
  ⟨(outputs_have_fixed_lengths mockSodium).1 0 (List.replicate 64 0) (by decide),
   (outputs_have_fixed_lengths mockSodium).2.1 0 (List.replicate 64 0)
     (List.replicate 32 0) (by decide),
   (outputs_have_fixed_lengths mockSodium).2.2 (List.replicate 64 0) [1]
     (List.replicate 32 0 ++ 1 :: 1 :: List.replicate 30 0) (by decide)⟩

/-- C7: when the keypair primitive reports a non-zero status inside
`EdDSAGenerateKey`, the operation aborts with the fatal panic rather than
returning; in particular it never returns any (zeroed or other) key. -/
theorem generateKey_fatal_on_failure (S : SodiumSign) (w : Nat)
    (h : S.keypair_rv w ≠ 0) :
    EdDSAGenerateKey S w = .panicked "crypto_sign_keypair returned non-zero" ∧
    ∀ k, EdDSAGenerateKey S w ≠ .ok k := by
  have hp : ¬ S.PUBLICKEYBYTES = 0 := Nat.pos_iff_ne_zero.mp S.public_pos
  have hs : ¬ S.SECRETKEYBYTES = 0 := Nat.pos_iff_ne_zero.mp S.secret_pos
  have he : EdDSAGenerateKey S w = .panicked "crypto_sign_keypair returned non-zero" := by
    unfold EdDSAGenerateKey
    rw [if_neg hp, if_neg hs, if_pos h]
  exact ⟨he, fun k hk => by rw [he] at hk; exact GoOutcome.noConfusion hk⟩

theorem generateKey_fatal_on_failure_witness :
    EdDSAGenerateKey mockSodiumFail 0 = .panicked "crypto_sign_keypair returned non-zero" :=
  (generateKey_fatal_on_failure mockSodiumFail 0 (by decide)).1

/-- C2 (amended): `Verify` with a signature whose length differs from
`SIGNBYTES` (including the zero-length signature) panics with the formatted
wrong-length message instead of returning a verification-failure value; the
length check precedes every buffer access, so no out-of-bounds access
occurs. -/
theorem verify_wrong_length_panics (S : SodiumSign) (publ msg sig : List Nat)
    (h : sig.length ≠ S.SIGNBYTES) :
    EdDSAPublic.Verify S publ msg sig =
      .panicked (sprintfWrongLen sig.length S.SIGNBYTES) := by
  unfold EdDSAPublic.Verify
  rw [if_pos h]

theorem verify_wrong_length_panics_witness :
    EdDSAPublic.Verify mockSodium (List.replicate 32 0) [104, 105] [] =
      .panicked (sprintfWrongLen 0 64) :=
  verify_wrong_length_panics mockSodium (List.replicate 32 0) [104, 105] [] (by decide)

/-- C2 counterexample: a zero-length signature buffer makes `Verify` panic;
it does not return an ordinary verification-failure result. -/
theorem verify_wrong_length_counterexample :
    (EdDSAPublic.Verify mockSodium (List.replicate 32 0) [104, 105] []).isOk = false ∧
    EdDSAPublic.Verify mockSodium (List.replicate 32 0) [104, 105] [] =
      .panicked (sprintfWrongLen 0 64) := by
  constructor
  · rfl
  · rfl

/-- C4 (amended): for a public key of length `PUBLICKEYBYTES`, a non-empty
message, and a signature of length `SIGNBYTES`, `Verify` has exactly two
outcomes: `nil` (valid) or the returned error value
`"EdDSA signature is forged!"` (invalid); a cryptographic mismatch is an
ordinary recoverable error value, never a panic. -/
theorem verify_two_outcomes (S : SodiumSign) (publ msg sig : List Nat)
    (hp : publ.length = S.PUBLICKEYBYTES) (hm : msg ≠ []) (hs : sig.length = S.SIGNBYTES) :
    EdDSAPublic.Verify S publ msg sig = .ok none ∨
    EdDSAPublic.Verify S publ msg sig = .ok (some "EdDSA signature is forged!") := by
  have hm0 : ¬ msg.length = 0 := fun h0 => hm (List.length_eq_zero.mp h0)
  have hs0 : ¬ sig.length = 0 := by have := S.sign_pos; omega
  have hp0 : ¬ publ.length = 0 := by have := S.public_pos; omega
  unfold EdDSAPublic.Verify
  rw [if_neg (not_not_intro hs), if_neg hs0, if_neg hm0, if_neg hp0]
  by_cases hrv : S.verify_rv sig msg publ ≠ 0
  · rw [if_pos hrv]; exact Or.inr rfl
  · rw [if_neg hrv]; exact Or.inl rfl

theorem verify_two_outcomes_witness :
    EdDSAPublic.Verify mockSodium (List.replicate 32 0) [104] (List.replicate 64 0) = .ok none ∨
    EdDSAPublic.Verify mockSodium (List.replicate 32 0) [104] (List.replicate 64 0) =
      .ok (some "EdDSA signature is forged!") :=
  verify_two_outcomes mockSodium (List.replicate 32 0) [104] (List.replicate 64 0)
    (by decide) (by decide) (by decide)

/-- C4 counterexample: with a well-formed public key and signature but an
empty message, `Verify` has a third outcome: it panics (from
`&message[0]`) instead of returning `nil` or an error value. -/
theorem verify_two_outcomes_counterexample :
    (EdDSAPublic.Verify mockSodium (List.replicate 32 0) [] (List.replicate 64 0)).isOk = false ∧
    EdDSAPublic.Verify mockSodium (List.replicate 32 0) [] (List.replicate 64 0) =
      .panicked indexPanic := by
  constructor
  · rfl
  · rfl

/-- C1 (amended): for every private key of length `SECRETKEYBYTES` and
every non-empty message, verifying the signature produced by `Sign` against
the public key derived by `PublicKey` succeeds: the composite
`Verify(PublicKey(k), m, Sign(k, m))` returns `nil`. -/
theorem sign_verify_roundtrip (S : SodiumSign) (w : Nat) (k m : List Nat)
    (hk : k.length = S.SECRETKEYBYTES) (hm : m ≠ []) :
    signThenVerify S w k m = .ok none := by
  have hkne : ¬ k.length = 0 := by have := S.secret_pos; omega
  have hmne : ¬ m.length = 0 := fun h0 => hm (List.length_eq_zero.mp h0)
  have hpub : ¬ S.PUBLICKEYBYTES = 0 := Nat.pos_iff_ne_zero.mp S.public_pos
  have hsig : ¬ S.SIGNBYTES = 0 := Nat.pos_iff_ne_zero.mp S.sign_pos
  have hpk : EdDSAPrivate.PublicKey S w k = .ok (S.sk_to_pk k) := by
    unfold EdDSAPrivate.PublicKey
    rw [if_neg hpub, if_neg hkne, if_neg (not_not_intro (S.sk_to_pk_ok k hk)),
      bufWrite_eq_of_length _ _ (S.sk_to_pk_len k)]
  have hsg : EdDSAPrivate.Sign S k m = .ok (S.sign_detached k m) := by
    unfold EdDSAPrivate.Sign
    rw [if_neg hsig, if_neg hmne, if_neg hkne, if_neg (not_not_intro (S.sign_ok k m hk)),
      bufWrite_eq_of_length _ _ (S.sign_len k m)]
  simp only [signThenVerify, hpk, hsg]
  unfold EdDSAPublic.Verify
  rw [if_neg (not_not_intro (S.sign_len k m)),
    if_neg (by have := S.sign_len k m; omega : ¬ (S.sign_detached k m).length = 0),
    if_neg hmne,
    if_neg (by have := S.sk_to_pk_len k; omega : ¬ (S.sk_to_pk k).length = 0),
    if_neg (not_not_intro (S.verify_sign k m hk))]

theorem sign_verify_roundtrip_witness :
    signThenVerify mockSodium 0 (List.replicate 64 0) [104, 105] = .ok none :=
  sign_verify_roundtrip mockSodium 0 (List.replicate 64 0) [104, 105] (by decide) (by decide)

/-- C1 counterexample: at the empty message the composite does not succeed:
`Sign` panics before any signature exists, so
`Verify(PublicKey(k), m, Sign(k, m))` is a panic, not `nil`. -/
theorem sign_verify_roundtrip_counterexample :
    signThenVerify mockSodium 0 (List.replicate 64 0) [] ≠ .ok none ∧
    signThenVerify mockSodium 0 (List.replicate 64 0) [] = .panicked indexPanic := by
  constructor
  · decide
  · rfl

/-- C3: evaluating the code at the failing input: with a well-formed
64-byte private key and the empty message, `Sign` panics with the Go
index-out-of-range runtime error (`&message[0]` on a zero-length slice),
and `Verify` panics the same way on a well-formed key/signature pair with
the empty message, so the empty message can be neither signed nor
verified. -/
theorem sign_empty_message_panics :
    EdDSAPrivate.Sign mockSodium (List.replicate 64 0) [] = .panicked indexPanic ∧
    EdDSAPublic.Verify mockSodium (List.replicate 32 0) [] (List.replicate 64 0) =
      .panicked indexPanic := by
  constructor
  · rfl
  · rfl

/-- C8: JSON-marshaling a public key via `MarshalJSON` and unmarshaling the
result yields the original byte sequence, for every byte sequence of
well-formed bytes (in particular every public key of length
`PUBLICKEYBYTES`). -/
theorem marshalJSON_roundtrip (p : EdDSAPublic) (h : ∀ b ∈ p, b < 256) :
    jsonUnmarshalBytes (EdDSAPublic.MarshalJSON p) = some p := by
  simp only [EdDSAPublic.MarshalJSON, jsonUnmarshalBytes, List.getLast?_concat,
    List.dropLast_concat, if_pos]
  exact b64_roundtrip p h

theorem marshalJSON_roundtrip_witness :
    jsonUnmarshalBytes (EdDSAPublic.MarshalJSON (List.replicate 32 7)) =
      some (List.replicate 32 7) :=
  marshalJSON_roundtrip (List.replicate 32 7) (by decide)

/-- C10: none of `Sign`, `PublicKey`, `Verify` validates the length of the
key it receives.  Any non-empty key byte sequence, of any length, flows
straight to the underlying library call with no length check and no
explicit rejection — the library's status alone decides the outcome — and
the empty key byte sequence makes each operation panic with the
index-out-of-range runtime error before the library is reached. -/
theorem no_key_length_validation (S : SodiumSign) :
    (∀ w priv, priv ≠ [] → EdDSAPrivate.PublicKey S w priv =
      (if S.sk_to_pk_rv priv ≠ 0 then
        .panicked "crypto_sign_ed25519_sk_to_pk returned non-zero"
      else .ok (bufWrite S.PUBLICKEYBYTES (S.sk_to_pk priv)))) ∧
    (∀ priv msg, priv ≠ [] → msg ≠ [] → EdDSAPrivate.Sign S priv msg =
      (if S.sign_rv priv msg ≠ 0 then .panicked "crypto_sign_detached returned non-zero"
      else .ok (bufWrite S.SIGNBYTES (S.sign_detached priv msg)))) ∧
    (∀ publ msg sig, publ ≠ [] → msg ≠ [] → sig.length = S.SIGNBYTES →
      EdDSAPublic.Verify S publ msg sig =
      (if S.verify_rv sig msg publ ≠ 0 then .ok (some "EdDSA signature is forged!")
      else .ok none)) ∧
    (∀ w, EdDSAPrivate.PublicKey S w [] = .panicked indexPanic) ∧
    (∀ msg, EdDSAPrivate.Sign S [] msg = .panicked indexPanic) ∧
    (∀ msg sig, msg ≠ [] → sig.length = S.SIGNBYTES →
      EdDSAPublic.Verify S [] msg sig = .panicked indexPanic) := by
  have hpub : ¬ S.PUBLICKEYBYTES = 0 := Nat.pos_iff_ne_zero.mp S.public_pos
  have hsig : ¬ S.SIGNBYTES = 0 := Nat.pos_iff_ne_zero.mp S.sign_pos
  refine ⟨?_, ?_, ?_, ?_, ?_, ?_⟩
  · intro w priv hne
    have h0 : ¬ priv.length = 0 := fun h0 => hne (List.length_eq_zero.mp h0)
    unfold EdDSAPrivate.PublicKey
    rw [if_neg hpub, if_neg h0]
  · intro priv msg hne hmne
    have h0 : ¬ priv.length = 0 := fun h0 => hne (List.length_eq_zero.mp h0)
    have hm0 : ¬ msg.length = 0 := fun h0 => hmne (List.length_eq_zero.mp h0)
    unfold EdDSAPrivate.Sign
    rw [if_neg hsig, if_neg hm0, if_neg h0]
  · intro publ msg sig hne hmne hslen
    have h0 : ¬ publ.length = 0 := fun h0 => hne (List.length_eq_zero.mp h0)
    have hm0 : ¬ msg.length = 0 := fun h0 => hmne (List.length_eq_zero.mp h0)
    have hs0 : ¬ sig.length = 0 := by omega
    unfold EdDSAPublic.Verify
    rw [if_neg (not_not_intro hslen), if_neg hs0, if_neg hm0, if_neg h0]
  · intro w
    unfold EdDSAPrivate.PublicKey
    rw [if_neg hpub, if_pos List.length_nil]
  · intro msg
    unfold EdDSAPrivate.Sign
    rw [if_neg hsig]
    by_cases hm : msg.length = 0
    · rw [if_pos hm]
    · rw [if_neg hm, if_pos List.length_nil]
  · intro msg sig hmne hslen
    have hm0 : ¬ msg.length = 0 := fun h0 => hmne (List.length_eq_zero.mp h0)
    have hs0 : ¬ sig.length = 0 := by omega
    unfold EdDSAPublic.Verify
    rw [if_neg (not_not_intro hslen), if_neg hs0, if_neg hm0, if_pos List.length_nil]

theorem no_key_length_validation_witness :
    EdDSAPrivate.PublicKey mockSodium 0 [5] =
      (if mockSodium.sk_to_pk_rv [5] ≠ 0 then
        .panicked "crypto_sign_ed25519_sk_to_pk returned non-zero"
      else .ok (bufWrite mockSodium.PUBLICKEYBYTES (mockSodium.sk_to_pk [5]))) ∧
    EdDSAPrivate.Sign mockSodium [5] [7] =
      (if mockSodium.sign_rv [5] [7] ≠ 0 then
        .panicked "crypto_sign_detached returned non-zero"
      else .ok (bufWrite mockSodium.SIGNBYTES (mockSodium.sign_detached [5] [7]))) ∧
    EdDSAPublic.Verify mockSodium [5] [7] (List.replicate 64 0) =
      (if mockSodium.verify_rv (List.replicate 64 0) [7] [5] ≠ 0 then
        .ok (some "EdDSA signature is forged!")
      else .ok none) ∧
    EdDSAPrivate.PublicKey mockSodium 0 [] = .panicked indexPanic ∧
    EdDSAPrivate.Sign mockSodium [] [7] = .panicked indexPanic ∧
    EdDSAPublic.Verify mockSodium [] [7] (List.replicate 64 0) = .panicked indexPanic :=
  ⟨(no_key_length_validation mockSodium).1 0 [5] (by decide),
   (no_key_length_validation mockSodium).2.1 [5] [7] (by decide) (by decide),
   (no_key_length_validation mockSodium).2.2.1 [5] [7] (List.replicate 64 0)
     (by decide) (by decide) (by decide),
   (no_key_length_validation mockSodium).2.2.2.1 0,
   (no_key_length_validation mockSodium).2.2.2.2.1 [7],
   (no_key_length_validation mockSodium).2.2.2.2.2 [7] (List.replicate 64 0)
     (by decide) (by decide)⟩
